import Mathlib

/-!
Verification of the 2D camera transform subsystem (src/src/graphics/camera.rs).

The camera owns viewport dimensions and view parameters (position, rotation,
zoom), and caches a 4x4 affine matrix combining them.  Scalars are modelled as
real numbers (the ideal semantics of the f32 arithmetic in the code).  The
generic matrix and vector library used by the camera (the crate-level math
module, a re-export of the vek crate) is not part of the supplied sources; it
is modelled below from the specification, which describes it as a generic 4x4
matrix and 2D/3D vector library supporting translation, rotation about a
single axis, uniform scaling, matrix inversion, matrix-point multiplication,
and composition by multiplication or append, where appending a transform
pre-multiplies it onto the accumulated matrix.
-/

namespace Tetra

noncomputable section

/-- A 4x4 matrix of scalars, as in the math library used by the camera. -/
abbrev Mat4 := Matrix (Fin 4) (Fin 4) ℝ

/-- A 2D vector of scalars. -/
structure Vec2 where
  x : ℝ
  y : ℝ

/-- A 3D vector of scalars. -/
structure Vec3 where
  x : ℝ
  y : ℝ
  z : ℝ

instance : Neg Vec2 where
  neg v := ⟨-v.x, -v.y⟩

/-- Modelled from the spec: the math library constructor of a 2D translation
matrix (vek `Mat4::translation_2d`). -/
def Mat4.translation_2d (v : Vec2) : Mat4 :=
  !![1, 0, 0, v.x;
     0, 1, 0, v.y;
     0, 0, 1, 0;
     0, 0, 0, 1]

/-- Modelled from the spec: the math library constructor of a rotation matrix
about the z axis (vek `Mat4::rotation_z`). -/
def Mat4.rotation_z (θ : ℝ) : Mat4 :=
  !![Real.cos θ, -Real.sin θ, 0, 0;
     Real.sin θ,  Real.cos θ, 0, 0;
     0, 0, 1, 0;
     0, 0, 0, 1]

/-- Modelled from the spec: the math library constructor of a 3D scaling
matrix (vek `Mat4::scaling_3d`). -/
def Mat4.scaling_3d (v : Vec3) : Mat4 :=
  !![v.x, 0, 0, 0;
     0, v.y, 0, 0;
     0, 0, v.z, 0;
     0, 0, 0, 1]

/-- Modelled from the spec: appending a 2D translation pre-multiplies the
translation matrix onto the accumulated matrix (vek `Mat4::translate_2d`,
whose functional form is `translated_2d`). -/
def Mat4.translate_2d (m : Mat4) (v : Vec2) : Mat4 :=
  Mat4.translation_2d v * m

/-- Modelled from the spec: appending a rotation about z pre-multiplies the
rotation matrix onto the accumulated matrix (vek `Mat4::rotate_z`). -/
def Mat4.rotate_z (m : Mat4) (θ : ℝ) : Mat4 :=
  Mat4.rotation_z θ * m

/-- Modelled from the spec: appending a 3D scaling pre-multiplies the scaling
matrix onto the accumulated matrix (vek `Mat4::scale_3d`). -/
def Mat4.scale_3d (m : Mat4) (v : Vec3) : Mat4 :=
  Mat4.scaling_3d v * m

/-- Modelled from the spec: general 4x4 matrix inversion (vek
`Mat4::inverted`, a cofactor inverse; on the reals this is the Mathlib
nonsingular inverse, adjugate divided by determinant, which agrees with the
cofactor formula wherever the matrix is invertible and produces junk on a
singular matrix just as the floating-point cofactor formula does). -/
noncomputable def Mat4.inverted (m : Mat4) : Mat4 :=
  m⁻¹

/-- Modelled from the spec: matrix-point multiplication (vek
`Mat4::mul_point`): the point is extended with a homogeneous coordinate
w = 1, multiplied, and w is discarded from the result. -/
def Mat4.mul_point (m : Mat4) (p : Vec3) : Vec3 :=
  let r := m.mulVec ![p.x, p.y, p.z, 1]
  ⟨r 0, r 1, r 2⟩

/-- Modelled from the spec: embedding of a 2D point as a homogeneous 3D point
(vek `Vec3::from_point_2d`, which sets the third coordinate to 1). -/
def Vec3.from_point_2d (p : Vec2) : Vec3 :=
  ⟨p.x, p.y, 1⟩

/-- Modelled from the spec: projection of a 3D vector onto its first two
coordinates (vek `Vec3::xy`). -/
def Vec3.xy (p : Vec3) : Vec2 :=
  ⟨p.x, p.y⟩

/-- The zero 2D vector (vek `Vec2::zero`). -/
def Vec2.zero : Vec2 :=
  ⟨0, 0⟩

/-- The camera of src/src/graphics/camera.rs: position, rotation (radians),
zoom, viewport size, and the cached transformation matrix. -/
structure Camera where
  position : Vec2
  rotation : ℝ
  zoom : ℝ
  viewport_width : ℝ
  viewport_height : ℝ
  matrix : Mat4

namespace Camera

/-- `Camera::new`: default fields, cached matrix a pure translation by half
the viewport size. -/
def new (viewport_width viewport_height : ℝ) : Camera where
  position := Vec2.zero
  rotation := 0
  zoom := 1
  viewport_width := viewport_width
  viewport_height := viewport_height
  matrix := Mat4.translation_2d ⟨viewport_width / 2, viewport_height / 2⟩

/-- `Camera::set_viewport_size`: overwrites the stored viewport dimensions,
leaving every other field (the cached matrix included) unchanged. -/
def set_viewport_size (c : Camera) (width height : ℝ) : Camera :=
  { c with viewport_width := width, viewport_height := height }

/-- `Camera::update`: rebuilds the cached matrix, starting from the
translation by the negated position and appending the rotation, the scaling
and the translation to the viewport center, in the order of the source. -/
def update (c : Camera) : Camera :=
  let m0 := Mat4.translation_2d (-c.position)
  let m1 := m0.rotate_z c.rotation
  let m2 := m1.scale_3d ⟨c.zoom, c.zoom, 1⟩
  let m3 := m2.translate_2d ⟨c.viewport_width / 2, c.viewport_height / 2⟩
  { c with matrix := m3 }

/-- `Camera::as_matrix`: returns the cached matrix verbatim. -/
def as_matrix (c : Camera) : Mat4 :=
  c.matrix

/-- `Camera::project`: multiplies the inverted cached matrix with the
homogeneous extension of the point and drops back to 2D. -/
noncomputable def project (c : Camera) (point : Vec2) : Vec2 :=
  ((c.as_matrix.inverted).mul_point (Vec3.from_point_2d point)).xy

/-- `Camera::unproject`: multiplies the cached matrix with the homogeneous
extension of the point and drops back to 2D. -/
def unproject (c : Camera) (point : Vec2) : Vec2 :=
  (c.as_matrix.mul_point (Vec3.from_point_2d point)).xy

end Camera

/-- The matrix update builds, written out entrywise. -/
def viewMat (px py θ z cx cy : ℝ) : Mat4 :=
  !![z * Real.cos θ, -(z * Real.sin θ), 0, z * (Real.sin θ * py - Real.cos θ * px) + cx;
     z * Real.sin θ, z * Real.cos θ, 0, -(z * (Real.sin θ * px + Real.cos θ * py)) + cy;
     0, 0, 1, 0;
     0, 0, 0, 1]

/-- The inverse of `viewMat`, written out entrywise. -/
def viewMatInv (px py θ z cx cy : ℝ) : Mat4 :=
  !![Real.cos θ / z, Real.sin θ / z, 0, px - (Real.cos θ * cx + Real.sin θ * cy) / z;
     -(Real.sin θ / z), Real.cos θ / z, 0, py + (Real.sin θ * cx - Real.cos θ * cy) / z;
     0, 0, 1, 0;
     0, 0, 0, 1]

/-- The matrix `update` recomputes, as a function of the field values it
reads: the composition of the viewport-center translation, the uniform
scaling, the rotation and the translation by the negated position. -/
def recomputedMatrix (position : Vec2) (rotation zoom vw vh : ℝ) : Mat4 :=
  Mat4.translation_2d ⟨vw / 2, vh / 2⟩ * Mat4.scaling_3d ⟨zoom, zoom, 1⟩ *
    Mat4.rotation_z rotation * Mat4.translation_2d (-position)

/-- A camera with viewport 800x600 and position (100, 50): with default
rotation and zoom, its viewport center no longer corresponds to the origin. -/
def offsetCam : Camera :=
  { Camera.new 800 600 with position := ⟨100, 50⟩ }

/-- A camera with viewport 800x600 and zoom 2, position (0, 0), rotation 0:
a camera at doubled zoom. -/
def zoomCam2 : Camera :=
  { Camera.new 800 600 with zoom := 2 }

/-- A camera with viewport 800x600 and zoom 0: after update its cached
matrix is singular. -/
def singularCam : Camera :=
  { Camera.new 800 600 with zoom := 0 }

theorem mul_fin_four
    (a₀₀ a₀₁ a₀₂ a₀₃ a₁₀ a₁₁ a₁₂ a₁₃ a₂₀ a₂₁ a₂₂ a₂₃ a₃₀ a₃₁ a₃₂ a₃₃
     b₀₀ b₀₁ b₀₂ b₀₃ b₁₀ b₁₁ b₁₂ b₁₃ b₂₀ b₂₁ b₂₂ b₂₃ b₃₀ b₃₁ b₃₂ b₃₃ : ℝ) :
    !![a₀₀, a₀₁, a₀₂, a₀₃;
       a₁₀, a₁₁, a₁₂, a₁₃;
       a₂₀, a₂₁, a₂₂, a₂₃;
       a₃₀, a₃₁, a₃₂, a₃₃] *
    !![b₀₀, b₀₁, b₀₂, b₀₃;
       b₁₀, b₁₁, b₁₂, b₁₃;
       b₂₀, b₂₁, b₂₂, b₂₃;
       b₃₀, b₃₁, b₃₂, b₃₃] =
    !![a₀₀*b₀₀ + a₀₁*b₁₀ + a₀₂*b₂₀ + a₀₃*b₃₀, a₀₀*b₀₁ + a₀₁*b₁₁ + a₀₂*b₂₁ + a₀₃*b₃₁,
         a₀₀*b₀₂ + a₀₁*b₁₂ + a₀₂*b₂₂ + a₀₃*b₃₂, a₀₀*b₀₃ + a₀₁*b₁₃ + a₀₂*b₂₃ + a₀₃*b₃₃;
       a₁₀*b₀₀ + a₁₁*b₁₀ + a₁₂*b₂₀ + a₁₃*b₃₀, a₁₀*b₀₁ + a₁₁*b₁₁ + a₁₂*b₂₁ + a₁₃*b₃₁,
         a₁₀*b₀₂ + a₁₁*b₁₂ + a₁₂*b₂₂ + a₁₃*b₃₂, a₁₀*b₀₃ + a₁₁*b₁₃ + a₁₂*b₂₃ + a₁₃*b₃₃;
       a₂₀*b₀₀ + a₂₁*b₁₀ + a₂₂*b₂₀ + a₂₃*b₃₀, a₂₀*b₀₁ + a₂₁*b₁₁ + a₂₂*b₂₁ + a₂₃*b₃₁,
         a₂₀*b₀₂ + a₂₁*b₁₂ + a₂₂*b₂₂ + a₂₃*b₃₂, a₂₀*b₀₃ + a₂₁*b₁₃ + a₂₂*b₂₃ + a₂₃*b₃₃;
       a₃₀*b₀₀ + a₃₁*b₁₀ + a₃₂*b₂₀ + a₃₃*b₃₀, a₃₀*b₀₁ + a₃₁*b₁₁ + a₃₂*b₂₁ + a₃₃*b₃₁,
         a₃₀*b₀₂ + a₃₁*b₁₂ + a₃₂*b₂₂ + a₃₃*b₃₂, a₃₀*b₀₃ + a₃₁*b₁₃ + a₃₂*b₂₃ + a₃₃*b₃₃] := by
  ext i j
  fin_cases i <;> fin_cases j <;>
    simp [Matrix.mul_apply, Matrix.dotProduct, Fin.sum_univ_succ, ← add_assoc]

theorem mulVec_fin_four
    (m₀₀ m₀₁ m₀₂ m₀₃ m₁₀ m₁₁ m₁₂ m₁₃ m₂₀ m₂₁ m₂₂ m₂₃ m₃₀ m₃₁ m₃₂ m₃₃
     v₀ v₁ v₂ v₃ : ℝ) :
    Matrix.mulVec !![m₀₀, m₀₁, m₀₂, m₀₃;
       m₁₀, m₁₁, m₁₂, m₁₃;
       m₂₀, m₂₁, m₂₂, m₂₃;
       m₃₀, m₃₁, m₃₂, m₃₃] ![v₀, v₁, v₂, v₃] =
    ![m₀₀*v₀ + m₀₁*v₁ + m₀₂*v₂ + m₀₃*v₃,
      m₁₀*v₀ + m₁₁*v₁ + m₁₂*v₂ + m₁₃*v₃,
      m₂₀*v₀ + m₂₁*v₁ + m₂₂*v₂ + m₂₃*v₃,
      m₃₀*v₀ + m₃₁*v₁ + m₃₂*v₂ + m₃₃*v₃] := by
  ext i
  fin_cases i <;>
    simp [Matrix.mulVec, Matrix.dotProduct, Fin.sum_univ_succ, ← add_assoc]

theorem Vec2.neg_x (v : Vec2) : (-v).x = -v.x := rfl

theorem Vec2.neg_y (v : Vec2) : (-v).y = -v.y := rfl

theorem update_matrix_def (c : Camera) :
    (c.update).matrix =
      Mat4.translation_2d ⟨c.viewport_width / 2, c.viewport_height / 2⟩ *
        (Mat4.scaling_3d ⟨c.zoom, c.zoom, 1⟩ *
          (Mat4.rotation_z c.rotation * Mat4.translation_2d (-c.position))) := rfl

theorem update_matrix_explicit (c : Camera) :
    (c.update).matrix =
      viewMat c.position.x c.position.y c.rotation c.zoom
        (c.viewport_width / 2) (c.viewport_height / 2) := by
  rw [update_matrix_def]
  unfold Mat4.translation_2d Mat4.rotation_z Mat4.scaling_3d viewMat
  rw [Vec2.neg_x, Vec2.neg_y]
  rw [mul_fin_four, mul_fin_four, mul_fin_four]
  ext i j
  fin_cases i <;> fin_cases j <;> simp <;> first | (left ; ring1) | ring1

theorem one_fin_four :
    (1 : Mat4) = !![1, 0, 0, 0; 0, 1, 0, 0; 0, 0, 1, 0; 0, 0, 0, 1] := by
  ext i j
  fin_cases i <;> fin_cases j <;>
    simp [Matrix.one_apply, Matrix.vecHead, Matrix.vecTail]

theorem viewMat_mul_viewMatInv (px py θ z cx cy : ℝ) (hz : z ≠ 0) :
    viewMat px py θ z cx cy * viewMatInv px py θ z cx cy = 1 := by
  have h := Real.sin_sq_add_cos_sq θ
  unfold viewMat viewMatInv
  rw [mul_fin_four, one_fin_four]
  ext i j
  fin_cases i <;> fin_cases j <;> simp [Matrix.vecHead, Matrix.vecTail] <;>
    (try field_simp) <;>
    (first
      | ring1
      | linear_combination z * h
      | linear_combination (z * cx) * h
      | linear_combination (z * cy) * h
      | linear_combination (-(z * cx)) * h
      | linear_combination (-(z * cy)) * h)

theorem inverted_viewMat (px py θ z cx cy : ℝ) (hz : z ≠ 0) :
    (viewMat px py θ z cx cy).inverted = viewMatInv px py θ z cx cy :=
  Matrix.inv_eq_right_inv (viewMat_mul_viewMatInv px py θ z cx cy hz)

theorem viewMat_mul_point (px py θ z cx cy x y : ℝ) :
    (viewMat px py θ z cx cy).mul_point ⟨x, y, 1⟩ =
      ⟨z * Real.cos θ * (x - px) - z * Real.sin θ * (y - py) + cx,
       z * Real.sin θ * (x - px) + z * Real.cos θ * (y - py) + cy, 1⟩ := by
  unfold viewMat Mat4.mul_point
  rw [mulVec_fin_four]
  simp [Vec3.mk.injEq]
  refine ⟨by ring, by ring⟩

theorem viewMatInv_mul_point (px py θ z cx cy x y : ℝ) :
    (viewMatInv px py θ z cx cy).mul_point ⟨x, y, 1⟩ =
      ⟨(Real.cos θ * (x - cx) + Real.sin θ * (y - cy)) / z + px,
       (-(Real.sin θ * (x - cx)) + Real.cos θ * (y - cy)) / z + py, 1⟩ := by
  unfold viewMatInv Mat4.mul_point
  rw [mulVec_fin_four]
  simp [Vec3.mk.injEq]
  refine ⟨by ring, by ring⟩

theorem update_unproject (c : Camera) (P : Vec2) :
    (c.update).unproject P =
      ⟨c.zoom * Real.cos c.rotation * (P.x - c.position.x) -
         c.zoom * Real.sin c.rotation * (P.y - c.position.y) + c.viewport_width / 2,
       c.zoom * Real.sin c.rotation * (P.x - c.position.x) +
         c.zoom * Real.cos c.rotation * (P.y - c.position.y) + c.viewport_height / 2⟩ := by
  show (((c.update).matrix).mul_point ⟨P.x, P.y, 1⟩).xy = _
  rw [update_matrix_explicit, viewMat_mul_point]
  rfl

theorem update_project (c : Camera) (hz : c.zoom ≠ 0) (Q : Vec2) :
    (c.update).project Q =
      ⟨(Real.cos c.rotation * (Q.x - c.viewport_width / 2) +
          Real.sin c.rotation * (Q.y - c.viewport_height / 2)) / c.zoom + c.position.x,
       (-(Real.sin c.rotation * (Q.x - c.viewport_width / 2)) +
          Real.cos c.rotation * (Q.y - c.viewport_height / 2)) / c.zoom + c.position.y⟩ := by
  show ((((c.update).matrix).inverted).mul_point ⟨Q.x, Q.y, 1⟩).xy = _
  rw [update_matrix_explicit, inverted_viewMat _ _ _ _ _ _ hz, viewMatInv_mul_point]
  rfl

theorem roundtrip_test (c : Camera) (hz : c.zoom ≠ 0) (P : Vec2) :
    (c.update).project ((c.update).unproject P) = P ∧
    (c.update).unproject ((c.update).project P) = P := by
  have h := Real.sin_sq_add_cos_sq c.rotation
  constructor
  · rw [update_unproject, update_project c hz]
    dsimp only
    cases P with
    | mk x y =>
      simp only [Vec2.mk.injEq]
      constructor <;> field_simp <;>
        (first
          | linear_combination (c.zoom * (x - c.position.x)) * h
          | linear_combination (c.zoom * (y - c.position.y)) * h)
  · rw [update_project c hz, update_unproject]
    dsimp only
    cases P with
    | mk x y =>
      simp only [Vec2.mk.injEq]
      constructor <;> field_simp <;>
        (first
          | linear_combination (8 * c.zoom ^ 2 * (2 * x - c.viewport_width)) * h
          | linear_combination (8 * c.zoom ^ 2 * (2 * y - c.viewport_height)) * h)

theorem update_as_matrix_recomputed (c : Camera) :
    (c.update).as_matrix =
      recomputedMatrix c.position c.rotation c.zoom c.viewport_width c.viewport_height := by
  show (c.update).matrix = _
  rw [update_matrix_def]
  unfold recomputedMatrix
  simp only [mul_assoc]

theorem camera_with_matrix_eq (c : Camera) (M : Mat4) (hM : M = c.matrix) :
    ({ c with matrix := M } : Camera) = c := by
  rw [hM]

/-- C1: after `update()`, the cached matrix equals the composition
T2 * S * R * T1, where T1 translates by the negated position, R rotates about
the z axis by `rotation` radians, S scales by (zoom, zoom, 1) and T2
translates by half the viewport size; hence a point multiplied by the matrix
is first translated by the negated position, then rotated, then scaled, then
translated to the viewport center. -/
theorem update_matrix_composition (c : Camera) :
    (c.update).as_matrix =
      Mat4.translation_2d ⟨c.viewport_width / 2, c.viewport_height / 2⟩ *
        Mat4.scaling_3d ⟨c.zoom, c.zoom, 1⟩ *
        Mat4.rotation_z c.rotation *
        Mat4.translation_2d (-c.position) ∧
    ∀ p : Vec2,
      ((c.update).as_matrix).mul_point (Vec3.from_point_2d p) =
        (Mat4.translation_2d ⟨c.viewport_width / 2, c.viewport_height / 2⟩).mul_point
          ((Mat4.scaling_3d ⟨c.zoom, c.zoom, 1⟩).mul_point
            ((Mat4.rotation_z c.rotation).mul_point
              ((Mat4.translation_2d (-c.position)).mul_point (Vec3.from_point_2d p)))) := by
  constructor
  · show (c.update).matrix = _
    rw [update_matrix_def]
    simp only [mul_assoc]
  · intro p
    show ((c.update).matrix).mul_point ⟨p.x, p.y, 1⟩ = _
    rw [update_matrix_explicit, viewMat_mul_point]
    unfold Mat4.mul_point Mat4.translation_2d Mat4.rotation_z Mat4.scaling_3d
      Vec3.from_point_2d
    simp only [mulVec_fin_four, Vec2.neg_x, Vec2.neg_y]
    simp [Vec3.mk.injEq]
    refine ⟨by ring, by ring⟩

/-- C6: `new(w, h)` has position (0,0), rotation 0, zoom 1, the given
viewport size, and a cached matrix equal to the pure translation by
(w/2, h/2); without any `update()`, that matrix maps the world point (0,0)
to the viewport point (w/2, h/2). -/
theorem new_fields_and_matrix (w h : ℝ) :
    (Camera.new w h).position = (⟨0, 0⟩ : Vec2) ∧
    (Camera.new w h).rotation = 0 ∧
    (Camera.new w h).zoom = 1 ∧
    (Camera.new w h).viewport_width = w ∧
    (Camera.new w h).viewport_height = h ∧
    (Camera.new w h).as_matrix = Mat4.translation_2d ⟨w / 2, h / 2⟩ ∧
    (((Camera.new w h).as_matrix).mul_point (Vec3.from_point_2d ⟨0, 0⟩)).xy =
      (⟨w / 2, h / 2⟩ : Vec2) := by
  refine ⟨rfl, rfl, rfl, rfl, rfl, rfl, ?_⟩
  show ((Mat4.translation_2d ⟨w / 2, h / 2⟩).mul_point ⟨0, 0, 1⟩).xy = _
  unfold Mat4.translation_2d Mat4.mul_point
  rw [mulVec_fin_four]
  simp [Vec3.xy, Vec2.mk.injEq]

/-- C7: mutating `position`, `rotation` or `zoom`, or calling
`set_viewport_size`, leaves the cached matrix returned by `as_matrix`
unchanged; only a subsequent `update()` yields the matrix recomputed from the
new field values. -/
theorem mutation_staleness_update_refresh (c : Camera) (p : Vec2) (r z w h : ℝ) :
    ({ c with position := p } : Camera).as_matrix = c.as_matrix ∧
    ({ c with rotation := r } : Camera).as_matrix = c.as_matrix ∧
    ({ c with zoom := z } : Camera).as_matrix = c.as_matrix ∧
    (c.set_viewport_size w h).as_matrix = c.as_matrix ∧
    (({ c with position := p } : Camera).update).as_matrix =
      recomputedMatrix p c.rotation c.zoom c.viewport_width c.viewport_height ∧
    (({ c with rotation := r } : Camera).update).as_matrix =
      recomputedMatrix c.position r c.zoom c.viewport_width c.viewport_height ∧
    (({ c with zoom := z } : Camera).update).as_matrix =
      recomputedMatrix c.position c.rotation z c.viewport_width c.viewport_height ∧
    ((c.set_viewport_size w h).update).as_matrix =
      recomputedMatrix c.position c.rotation c.zoom w h :=
  ⟨rfl, rfl, rfl, rfl,
   update_as_matrix_recomputed _, update_as_matrix_recomputed _,
   update_as_matrix_recomputed _, update_as_matrix_recomputed _⟩

/-- C9: the cached matrix of `new(w, h)` is exactly the matrix `update()`
computes from the default fields: updating a freshly constructed camera
leaves it unchanged. -/
theorem new_matrix_agrees_with_update (w h : ℝ) :
    (Camera.new w h).update = Camera.new w h := by
  have hm : ((Camera.new w h).update).matrix = (Camera.new w h).matrix := by
    rw [update_matrix_explicit]
    show viewMat (Vec2.zero).x (Vec2.zero).y 0 1 (w / 2) (h / 2) =
      Mat4.translation_2d ⟨w / 2, h / 2⟩
    unfold viewMat Mat4.translation_2d Vec2.zero
    ext i j
    fin_cases i <;> fin_cases j <;> simp
  exact camera_with_matrix_eq (Camera.new w h) _ hm

/-- C10: `update()` changes no field except the cached matrix, and a second
consecutive `update()` leaves the camera exactly as the first. -/
theorem update_only_mutates_matrix (c : Camera) :
    (c.update).position = c.position ∧
    (c.update).rotation = c.rotation ∧
    (c.update).zoom = c.zoom ∧
    (c.update).viewport_width = c.viewport_width ∧
    (c.update).viewport_height = c.viewport_height ∧
    (c.update).update = c.update :=
  ⟨rfl, rfl, rfl, rfl, rfl, rfl⟩

/-- C2: for any camera with positive zoom, after `update()` the conversions
round-trip exactly: project after unproject and unproject after project are
both the identity on every 2D point (the cached matrix is invertible, its
determinant being the square of the zoom). -/
theorem project_unproject_roundtrip (c : Camera) (hz : 0 < c.zoom) (P : Vec2) :
    (c.update).project ((c.update).unproject P) = P ∧
    (c.update).unproject ((c.update).project P) = P :=
  roundtrip_test c (ne_of_gt hz) P

/-- Witness for C2 at the camera `new(800, 600)` and the point (3, 5). -/
theorem project_unproject_roundtrip_witness :
    (0 : ℝ) < (Camera.new 800 600).zoom ∧
    ((Camera.new 800 600).update).project
        (((Camera.new 800 600).update).unproject ⟨3, 5⟩) = (⟨3, 5⟩ : Vec2) ∧
    ((Camera.new 800 600).update).unproject
        (((Camera.new 800 600).update).project ⟨3, 5⟩) = (⟨3, 5⟩ : Vec2) := by
  have hz : (0 : ℝ) < (Camera.new 800 600).zoom := by
    show (0 : ℝ) < 1
    norm_num
  exact ⟨hz, (project_unproject_roundtrip (Camera.new 800 600) hz ⟨3, 5⟩).1,
    (project_unproject_roundtrip (Camera.new 800 600) hz ⟨3, 5⟩).2⟩

/-- C3 (code evaluation): on the camera `new(800, 600)` after `update()`,
`unproject` applies the cached world-to-viewport matrix, so it sends
(400, 300) to (800, 600) and (0, 0) to (400, 300), and `project` applies the
inverse, sending (-400, -300) to (-800, -600) — not the values (0, 0),
(-400, -300), (0, 0) that the documented direction of the two conversions
gives. -/
theorem unproject_project_swapped_code_values :
    ((Camera.new 800 600).update).unproject ⟨400, 300⟩ = (⟨800, 600⟩ : Vec2) ∧
    ((Camera.new 800 600).update).unproject ⟨0, 0⟩ = (⟨400, 300⟩ : Vec2) ∧
    ((Camera.new 800 600).update).project ⟨-400, -300⟩ = (⟨-800, -600⟩ : Vec2) ∧
    (⟨800, 600⟩ : Vec2) ≠ (⟨0, 0⟩ : Vec2) := by
  have hz : (Camera.new 800 600).zoom ≠ 0 := by
    show (1 : ℝ) ≠ 0
    norm_num
  refine ⟨?_, ?_, ?_, ?_⟩
  · rw [update_unproject]
    simp [Camera.new, Vec2.zero, Vec2.mk.injEq]
    try norm_num
  · rw [update_unproject]
    simp [Camera.new, Vec2.zero, Vec2.mk.injEq]
    try norm_num
  · rw [update_project _ hz]
    simp [Camera.new, Vec2.zero, Vec2.mk.injEq]
    try norm_num
  · simp [Vec2.mk.injEq]
    try norm_num

/-- C4 (code evaluation): with rotation 0, zoom 1 and position (100, 50) on
an 800x600 viewport, `unproject` of the viewport center (400, 300) returns
(700, 550), not the camera position (100, 50); it is `project` that returns
the position there. -/
theorem viewport_center_unproject_code_value :
    (offsetCam.update).unproject ⟨400, 300⟩ = (⟨700, 550⟩ : Vec2) ∧
    (⟨700, 550⟩ : Vec2) ≠ (⟨100, 50⟩ : Vec2) ∧
    (offsetCam.update).project ⟨400, 300⟩ = (⟨100, 50⟩ : Vec2) := by
  have hz : offsetCam.zoom ≠ 0 := by
    show (1 : ℝ) ≠ 0
    norm_num
  refine ⟨?_, ?_, ?_⟩
  · rw [update_unproject]
    simp [offsetCam, Camera.new, Vec2.mk.injEq]
    try norm_num
  · simp [Vec2.mk.injEq]
    try norm_num
  · rw [update_project _ hz]
    simp [offsetCam, Camera.new, Vec2.mk.injEq]
    try norm_num

/-- C5 (code evaluation): with rotation 0 and position (0, 0), the outputs of
`unproject` for the viewport points (0, 0) and (1, 0) are 1 apart at zoom 1
and 2 apart at zoom 2: doubling the zoom doubles, rather than halves, the
distance between the outputs of `unproject`. -/
theorem zoom_scaling_unproject_code_value :
    ((Camera.new 800 600).update).unproject ⟨0, 0⟩ = (⟨400, 300⟩ : Vec2) ∧
    ((Camera.new 800 600).update).unproject ⟨1, 0⟩ = (⟨401, 300⟩ : Vec2) ∧
    (zoomCam2.update).unproject ⟨0, 0⟩ = (⟨400, 300⟩ : Vec2) ∧
    (zoomCam2.update).unproject ⟨1, 0⟩ = (⟨402, 300⟩ : Vec2) ∧
    ((402 : ℝ) - 400 = 2 * ((401 : ℝ) - 400) ∧
      (402 : ℝ) - 400 ≠ (1 / 2) * ((401 : ℝ) - 400)) := by
  refine ⟨?_, ?_, ?_, ?_, by norm_num⟩ <;>
    · rw [update_unproject]
      simp [zoomCam2, Camera.new, Vec2.zero, Vec2.mk.injEq]
      try norm_num

/-- C8: no camera operation reports an error: with zoom 0 the recomputed
cached matrix is singular (its determinant is not a unit), yet `project`
still returns a plain 2D value for every point — the singular case is an
unenforced precondition, not a detected fault. -/
theorem singular_zoom_total_no_error (c : Camera) (hz : c.zoom = 0) :
    ¬ IsUnit (Matrix.det ((c.update).as_matrix)) ∧
    ∀ p : Vec2, ∃ v : Vec2, (c.update).project p = v := by
  constructor
  · intro hu
    have hv : ((c.update).as_matrix).mulVec ![1, 0, 0, 0] = 0 := by
      show ((c.update).matrix).mulVec ![1, 0, 0, 0] = 0
      rw [update_matrix_explicit, hz]
      unfold viewMat
      rw [mulVec_fin_four]
      ext i
      fin_cases i <;> simp
    have h1 : ((c.update).as_matrix)⁻¹ * ((c.update).as_matrix) = 1 :=
      Matrix.nonsing_inv_mul _ hu
    have h0 : (![1, 0, 0, 0] : Fin 4 → ℝ) = 0 := by
      calc (![1, 0, 0, 0] : Fin 4 → ℝ)
          = (1 : Mat4).mulVec ![1, 0, 0, 0] := by rw [Matrix.one_mulVec]
        _ = (((c.update).as_matrix)⁻¹ * ((c.update).as_matrix)).mulVec ![1, 0, 0, 0] := by
            rw [h1]
        _ = ((c.update).as_matrix)⁻¹.mulVec (((c.update).as_matrix).mulVec ![1, 0, 0, 0]) := by
            rw [Matrix.mulVec_mulVec]
        _ = ((c.update).as_matrix)⁻¹.mulVec 0 := by rw [hv]
        _ = 0 := Matrix.mulVec_zero _
    have h10 : (1 : ℝ) = 0 := by simpa using congrFun h0 0
    exact one_ne_zero h10
  · intro p
    exact ⟨(c.update).project p, rfl⟩

/-- Witness for C8 at the camera with zoom 0 and the point (7, 9). -/
theorem singular_zoom_total_no_error_witness :
    singularCam.zoom = 0 ∧
    ¬ IsUnit (Matrix.det ((singularCam.update).as_matrix)) ∧
    ∃ v : Vec2, (singularCam.update).project ⟨7, 9⟩ = v :=
  ⟨rfl, (singular_zoom_total_no_error singularCam rfl).1,
   (singular_zoom_total_no_error singularCam rfl).2 ⟨7, 9⟩⟩

end

end Tetra
